import Mathlib

/-!
Verification of the grep matching-abstraction repository: a shallow embedding of
`src/gnu/gnulib_stubs.c`, `src/gnu/gnu_grep_wrapper.c` and `src/gnu/pcre2_wrapper.c`,
with theorems settling the specification claims about the growth policy, the
Literal/Regex backend wrapper and the PCRE backend wrapper.

Machine integers (`size_t`) are modelled as `Nat` with explicit reduction
modulo `2^64` at every point where the C computation can wrap.
-/

namespace GrepSpec

/-- `SIZE_MAX` for the 64-bit `size_t` used throughout the stubs. -/
def SIZE_MAX : Nat := 18446744073709551615

/-- One more than `SIZE_MAX`: the modulus of `size_t` arithmetic. -/
def SZMOD : Nat := 18446744073709551616

/-- Outcome of an allocation-helper call in `gnulib_stubs.c`:
either the fatal path `xalloc_die` fires before any allocation is attempted,
or the helper proceeds to request `bytes` bytes from the allocator. -/
inductive AllocAction where
  | die : AllocAction
  | request (bytes : Nat) : AllocAction
  deriving DecidableEq, Repr

/-- Outcome of `reallocarray` in `gnulib_stubs.c`: either the overflow guard
fires (return `NULL` with `errno = ENOMEM`, no allocation attempted), or the
call delegates to `realloc` with the computed byte count. -/
inductive ReallocResult where
  | overflow : ReallocResult
  | alloc (bytes : Nat) : ReallocResult
  deriving DecidableEq, Repr

/-- Embedding of `reallocarray` (gnulib_stubs.c lines 20-26):
`if (nmemb && size > SIZE_MAX / nmemb) { errno = ENOMEM; return NULL; }
 return realloc(ptr, nmemb * size);`
The multiplication is `size_t` arithmetic, hence the `% SZMOD`. -/
def reallocarray (nmemb size : Nat) : ReallocResult :=
  if nmemb ≠ 0 ∧ SIZE_MAX / nmemb < size then .overflow
  else .alloc ((nmemb * size) % SZMOD)

/-- Embedding of `xmalloc` (gnulib_stubs.c lines 133-139): requests `n` bytes;
the fatal path is only reached after the allocation attempt fails, so the
action recorded here is always the request itself. -/
def xmalloc (n : Nat) : AllocAction := .request n

/-- Embedding of `xnmalloc` (gnulib_stubs.c lines 157-159):
`return xmalloc(n * s);` — no overflow check; the product is `size_t`
arithmetic and can wrap. -/
def xnmalloc (n s : Nat) : AllocAction := xmalloc ((n * s) % SZMOD)

/-- Embedding of `xreallocarray` (gnulib_stubs.c lines 228-234):
`if (s != 0 && n > (size_t)-1 / s) xalloc_die();` then `xrealloc(p, n * s)`. -/
def xreallocarray (n s : Nat) : AllocAction :=
  if s ≠ 0 ∧ SIZE_MAX / s < n then .die
  else .request ((n * s) % SZMOD)

/-- Embedding of the new-count computation in `xpalloc`
(gnulib_stubs.c lines 210-226).  `n` and `n_incr_min` are `size_t` values,
`n_max` is the `ptrdiff_t` argument (negative means unbounded):
```
size_t n_incr = n;
if (n_incr < n_incr_min) n_incr = n_incr_min;
if (n_max >= 0 && n + n_incr > (size_t)n_max) n_incr = (size_t)n_max - n;
size_t new_n = n + n_incr;
```
Additions, the subtraction and the comparison happen in `size_t`, hence the
explicit `% SZMOD` reductions. -/
def xpalloc_new_n (n n_incr_min : Nat) (n_max : Int) : Nat :=
  let n_incr := if n < n_incr_min then n_incr_min else n
  let n_incr :=
    if 0 ≤ n_max ∧ n_max.toNat < (n + n_incr) % SZMOD then
      (n_max.toNat + SZMOD - n) % SZMOD
    else n_incr
  (n + n_incr) % SZMOD

/-- Embedding of the allocation request issued by `xpalloc`
(gnulib_stubs.c line 225): `return xrealloc(pa, new_n * s);` — the byte-size
multiplication is unchecked `size_t` arithmetic. -/
def xpalloc_request (n n_incr_min : Nat) (n_max : Int) (s : Nat) : AllocAction :=
  .request ((xpalloc_new_n n n_incr_min n_max * s) % SZMOD)

/-! ## Non-local failure boundary (gnu_grep_wrapper.c / gnulib_stubs.c) -/

/-- How a fatal-condition hook behaves when invoked. -/
inductive FatalHookBehavior where
  | abortsProcess : FatalHookBehavior
  | longjmpsToCheckpoint : FatalHookBehavior
  deriving DecidableEq, Repr

/-- Embedding of `xalloc_die` (gnulib_stubs.c lines 128-131): prints a
diagnostic to stderr and calls `abort()`.  No function in the repository ever
calls `longjmp(error_jmp, ...)`, so invoking the fatal hook aborts. -/
def xalloc_die_behavior : FatalHookBehavior := .abortsProcess

/-- What the underlying engine does during a wrapped compile/execute call. -/
inductive EngineSignal where
  | succeeds (handle : Nat) : EngineSignal
  | returnsNull : EngineSignal
  | raisesFatal : EngineSignal
  deriving DecidableEq, Repr

/-- Process-level outcome of one wrapped engine call. -/
inductive CallOutcome where
  | returns (handle : Option Nat) : CallOutcome
  | processTerminated : CallOutcome
  deriving DecidableEq, Repr

/-- Outcome of a wrapped engine call in `gnu_grep_compile_regex` /
`gnu_grep_compile_fixed` / `gnu_grep_execute` (gnu_grep_wrapper.c lines
116-119, 151-153, 194-196) as a function of the engine's signal.  The wrapper
installs `setjmp(error_jmp)` before entering the engine, and if control ever
resumed there it would return NULL (respectively -2).  When the engine raises
a fatal condition it invokes the fatal hook `xalloc_die`, whose behavior
decides whether control can resume at that checkpoint. -/
def wrapped_engine_call_outcome (sig : EngineSignal) : CallOutcome :=
  match sig with
  | .succeeds h => .returns (some h)
  | .returnsNull => .returns none
  | .raisesFatal =>
      match xalloc_die_behavior with
      | .longjmpsToCheckpoint => .returns none
      | .abortsProcess => .processTerminated

/-! ## Literal/Regex Backend (gnu_grep_wrapper.c) -/

/-- The mutable globals of gnu_grep_wrapper.c (lines 18-21 and 31). -/
structure GnuGlobals where
  match_icase : Bool
  match_words : Bool
  match_lines : Bool
  error_occurred : Bool
  deriving DecidableEq, Repr

/-- The globals' static initial values (gnu_grep_wrapper.c lines 18-21, 31). -/
def initGlobals : GnuGlobals :=
  { match_icase := false, match_words := false, match_lines := false,
    error_occurred := false }

/-- A compiled fixed-string matcher: result of the external `Fcompile`.
It records the caller-visible pattern and the case-insensitivity captured
from the global `match_icase` at compile time (spec §3: flags are fixed at
compile time; re-compilation is required to change them). -/
structure FixedMatcher where
  chars : List Char
  icase : Bool
  deriving DecidableEq, Repr

/-- Modelled from the spec: `Fcompile` (the external line-search engine's
compiler, not part of this repository).  It expects newline-terminated
pattern text (spec §4.3: the trailing line-terminator sentinel is internal
and must not alter the caller-visible pattern semantics), and folds case per
the global `match_icase` read at compile time. -/
def Fcompile (pattern_with_nl : List Char) (icase : Bool) : FixedMatcher :=
  { chars := pattern_with_nl.dropLast, icase := icase }

/-- Syntax bits handed to `GEAcompile` (gnu_grep_wrapper.c lines 160-164):
the base profile (`RE_SYNTAX_EGREP` when extended, else `RE_SYNTAX_GREP`)
plus the optional `RE_ICASE` bit. -/
structure RegSyntaxBits where
  extendedBase : Bool
  icase : Bool
  deriving DecidableEq, Repr

/-- A backend-internal compiled pattern: `ctx->compiled` points either at the
result of `Fcompile` (fixed strings) or of `GEAcompile` (regexes, kept
abstract as the pattern text plus the captured syntax bits). -/
inductive GnuPattern where
  | fixed (m : FixedMatcher) : GnuPattern
  | regex (pattern : List Char) (syn : RegSyntaxBits) : GnuPattern
  deriving DecidableEq, Repr

/-- The `GnuSearchContext` struct (gnu_grep_wrapper.c lines 93-96);
`compiled` is a nullable engine handle. -/
structure GnuSearchContext where
  compiled : Option GnuPattern
  is_fixed : Bool
  deriving DecidableEq, Repr

/-- Case folding of the fixed single-byte locale profile. -/
def foldChar (icase : Bool) (c : Char) : Char := if icase then c.toLower else c

/-- Whether the literal pattern occurs in `text` at index `i`, under the
matcher's case folding. -/
def litMatchAt (m : FixedMatcher) (text : List Char) (i : Nat) : Bool :=
  List.isPrefixOf (m.chars.map (foldChar m.icase)) ((text.drop i).map (foldChar m.icase))

/-- Index of the first occurrence of the literal pattern in `text`. -/
def litFind (m : FixedMatcher) (text : List Char) : Option Nat :=
  (List.range (text.length + 1)).find? (fun i => litMatchAt m text i)

/-- Start of the line of `text` containing index `i`: one past the last
newline at an index strictly before `i` (0 when there is none). -/
def lineStart (text : List Char) (i : Nat) : Nat :=
  ((List.range i).filter (fun j => text.getD j ' ' == '\n')).foldl (fun _ j => j + 1) 0

/-- One past the end of the line of `text` containing index `i`: one past its
terminating newline, or the text length when the last line is unterminated. -/
def lineEnd (text : List Char) (i : Nat) : Nat :=
  match (List.range (text.length - i)).find? (fun k => text.getD (i + k) ' ' == '\n') with
  | some k => i + k + 1
  | none => text.length

/-- Modelled from the spec: `Fexecute` (the external line-oriented search
engine, not part of this repository).  Per spec §4.3 and the wrapper's own
documentation (gnu_grep_wrapper.c lines 181-185), it reports the offset of
the LINE containing the first hit and that line's length (including the
newline), not the hit's own boundaries; `none` models the negative
"no match" return. -/
def Fexecute (m : FixedMatcher) (text : List Char) : Option (Nat × Nat) :=
  (litFind m text).map (fun i => (lineStart text i, lineEnd text i - lineStart text i))

/-- Result protocol of `gnu_grep_execute` (gnu_grep_wrapper.c lines 177-216):
-2 is a usage error, -1 is "no match", and otherwise the wrapper stores the
engine-reported offset in `*match_start` and returns the engine-reported
match size. -/
inductive GnuExecResult where
  | usageError : GnuExecResult
  | noMatch : GnuExecResult
  | found (start len : Nat) : GnuExecResult
  deriving DecidableEq, Repr

/-- Embedding of `gnu_grep_compile_fixed` (gnu_grep_wrapper.c lines 99-139),
with the transient allocations assumed to succeed (the failure paths return
NULL after the same global-state writes): sets the global match flags and
clears `error_occurred`, appends the newline sentinel to a copy of the
pattern, and hands the newline-terminated copy to `Fcompile`, which reads the
global `match_icase`. -/
def gnu_grep_compile_fixed (g : GnuGlobals) (pattern : List Char)
    (case_insensitive : Bool) : GnuGlobals × Option GnuSearchContext :=
  let g := { g with match_icase := case_insensitive, match_words := false,
                    match_lines := false, error_occurred := false }
  let m := Fcompile (pattern ++ ['\n']) g.match_icase
  (g, some { compiled := some (.fixed m), is_fixed := true })

/-- Embedding of `gnu_grep_compile_regex` (gnu_grep_wrapper.c lines 142-175),
with allocations assumed to succeed and the engine accepting the pattern:
sets the global flags, clears `error_occurred`, selects the syntax bits
(extended base or basic base, ORing in the case-fold bit on request) and
passes the pattern as-is to `GEAcompile`. -/
def gnu_grep_compile_regex (g : GnuGlobals) (pattern : List Char)
    (case_insensitive extended : Bool) : GnuGlobals × Option GnuSearchContext :=
  let g := { g with match_icase := case_insensitive, match_words := false,
                    match_lines := false, error_occurred := false }
  let syn : RegSyntaxBits := { extendedBase := extended, icase := case_insensitive }
  (g, some { compiled := some (.regex pattern syn), is_fixed := false })

/-- Embedding of `gnu_grep_execute` (gnu_grep_wrapper.c lines 187-216),
parametric in the two engine entry points (`fexec` for fixed patterns,
`egexec` for regexes); null pointers are modelled as `none`.  The checks on
the context, the compiled handle and the text happen before `error_occurred`
is cleared and before any engine call.  The wrapper forwards the engine's
reported offset and match size unchanged: no narrowing is performed on the
engine result. -/
def gnu_grep_execute
    (fexec : FixedMatcher → List Char → Option (Nat × Nat))
    (egexec : List Char → RegSyntaxBits → List Char → Option (Nat × Nat))
    (g : GnuGlobals) (ctx : Option GnuSearchContext) (text : Option (List Char)) :
    GnuGlobals × GnuExecResult :=
  match ctx with
  | none => (g, .usageError)
  | some c =>
    match c.compiled with
    | none => (g, .usageError)
    | some pat =>
      match text with
      | none => (g, .usageError)
      | some t =>
        if t.length = 0 then (g, .usageError)
        else
          let g := { g with error_occurred := false }
          match (match pat with
                 | .fixed m => fexec m t
                 | .regex p syn => egexec p syn t) with
          | none => (g, .noMatch)
          | some (start, size) => (g, .found start size)

/-- The static buffer `error_message` (gnu_grep_wrapper.c line 32):
zero-initialized and never written by any function in the repository. -/
def error_message : List Char := []

/-- Embedding of `gnu_grep_get_error` (gnu_grep_wrapper.c lines 229-231). -/
def gnu_grep_get_error (g : GnuGlobals) : Option (List Char) :=
  if g.error_occurred then some error_message else none

/-- One caller-visible operation of the Literal/Regex backend. -/
inductive GnuOp where
  | compileFixed (pattern : List Char) (ci : Bool) : GnuOp
  | compileRegex (pattern : List Char) (ci ext : Bool) : GnuOp
  | execute (ctx : Option GnuSearchContext) (text : Option (List Char)) : GnuOp

/-- Effect of one operation on the global state. -/
def applyOp (g : GnuGlobals) (op : GnuOp) : GnuGlobals :=
  match op with
  | .compileFixed p ci => (gnu_grep_compile_fixed g p ci).1
  | .compileRegex p ci ext => (gnu_grep_compile_regex g p ci ext).1
  | .execute ctx text => (gnu_grep_execute Fexecute (fun _ _ _ => none) g ctx text).1

/-- Global state after a sequence of backend operations. -/
def runOps (g : GnuGlobals) (ops : List GnuOp) : GnuGlobals := ops.foldl applyOp g

/-! ## PCRE Backend (pcre2_wrapper.c) -/

/-- The `PcreContext` struct (pcre2_wrapper.c lines 10-16); `code`,
`match_data` and `match_context` are nullable engine handles. -/
structure PcreContext where
  code : Option Nat
  match_data : Option Unit
  match_context : Option Unit
  error_code : Int
  error_offset : Nat
  deriving DecidableEq, Repr

/-- Outcome of the external `pcre2_compile` engine call: a compiled code
handle, or a syntax failure reported through an error code and the byte
offset within the pattern where compilation failed. -/
inductive PcreCompileOutcome where
  | ok (handle : Nat) : PcreCompileOutcome
  | syntaxError (code : Int) (offset : Nat) : PcreCompileOutcome
  deriving DecidableEq, Repr

/-- Embedding of `pcre2_compile_pattern` (pcre2_wrapper.c lines 27-71),
parametric in the allocation outcomes — `alloc_ctx` for the context `malloc`,
`alloc_md` for `pcre2_match_data_create_from_pattern`, `alloc_mc` for
`pcre2_match_context_create` — and in the engine's compile outcome.  Returns
`none` exactly when the C function returns NULL: context-allocation failure,
or match-data/match-context allocation failure (in which case every partial
allocation is released first).  On engine syntax failure the zeroed context
is returned with `code = NULL` and the error code/offset recorded. -/
def pcre2_compile_pattern (alloc_ctx : Bool) (engine : PcreCompileOutcome)
    (alloc_md alloc_mc : Bool) : Option PcreContext :=
  if ¬ alloc_ctx then none
  else
    match engine with
    | .syntaxError c off =>
        some { code := none, match_data := none, match_context := none,
               error_code := c, error_offset := off }
    | .ok h =>
        if alloc_md ∧ alloc_mc then
          some { code := some h, match_data := some (), match_context := some (),
                 error_code := 0, error_offset := 0 }
        else none

/-- Embedding of `pcre2_is_valid` (pcre2_wrapper.c lines 74-76):
`ctx && ctx->code != NULL`. -/
def pcre2_is_valid (ctx : Option PcreContext) : Bool :=
  match ctx with
  | none => false
  | some c => c.code.isSome

/-- Embedding of `pcre2_get_error_offset` (pcre2_wrapper.c lines 91-93). -/
def pcre2_get_error_offset (ctx : Option PcreContext) : Nat :=
  match ctx with
  | none => 0
  | some c => c.error_offset

/-- Embedding of `pcre2_wrapper_get_error_message` (pcre2_wrapper.c lines
79-88), parametric in the external `pcre2_get_error_message` table `getMsg`.
The C function fills a caller buffer; this returns the buffer's content after
the call, `none` when nothing is written (null context). -/
def pcre2_wrapper_get_error_message (getMsg : Int → List Char)
    (ctx : Option PcreContext) : Option (List Char) :=
  match ctx with
  | none => none
  | some c =>
    match c.code with
    | some _ => some []
    | none => some (getMsg c.error_code)

/-- One engine match attempt of the PCRE backend at a start offset:
`PCRE2_ERROR_NOMATCH`, another (negative) error code, or a match with
ovector span `(s, e)`. -/
inductive PcreMatchRc where
  | nomatch : PcreMatchRc
  | err (code : Int) : PcreMatchRc
  | found (s e : Nat) : PcreMatchRc
  deriving DecidableEq, Repr

/-- Loop of `pcre2_find_all` (pcre2_wrapper.c lines 145-178), parametric in
the engine match function `m` (start offset ↦ outcome).  `remaining` is
`max_results - count`: each recorded match decreases it, exactly as the C
guard `count < max_results` bounds the iteration count.  Also guarded by
`offset < text_len`.  On a match the offset advances to the match end, plus
one more byte when the match was zero-width.  Returns the recorded spans and
the error code if the loop exited on an engine error. -/
def pcre2_find_all_loop (m : Nat → PcreMatchRc) (text_len : Nat) :
    Nat → Nat → List (Nat × Nat) × Option Int
  | _, 0 => ([], none)
  | offset, remaining + 1 =>
    if offset < text_len then
      match m offset with
      | .nomatch => ([], none)
      | .err c => ([], some c)
      | .found s e =>
        let next := if s = e then e + 1 else e
        let rest := pcre2_find_all_loop m text_len next remaining
        ((s, e) :: rest.1, rest.2)
    else ([], none)

/-- Embedding of `pcre2_find_all` (pcre2_wrapper.c lines 136-181), parametric
in the engine match function, for a valid context and non-null buffers.  The
C function returns the match count with the spans written to the caller's
array (modelled as the span list), or a negative error code. -/
def pcre2_find_all (m : Nat → PcreMatchRc) (text_len max_results : Nat) :
    Int ⊕ List (Nat × Nat) :=
  match pcre2_find_all_loop m text_len 0 max_results with
  | (spans, none) => Sum.inr spans
  | (_, some c) => Sum.inl c

/-- Modelled from the spec: the engine behavior of a PCRE pattern that
matches the empty string at every position (spec §8: "a pattern matching at
every position of a text of length L, e.g. the pattern matches the empty
string") — the engine reports the zero-width span `(offset, offset)` at
every start offset. -/
def emptyEverywhere : Nat → PcreMatchRc := fun o => .found o o

/-! ## Concrete inputs used to evaluate the models -/

/-- The fixed-string pattern of spec §8 scenario 1. -/
def catPattern : List Char := ['c', 'a', 't']

/-- The text of spec §8 scenario 1, newline-terminated; the pattern occurs at
offsets 4..6 and the whole text is a single 12-byte line. -/
def catText : List Char := ['t', 'h', 'e', ' ', 'c', 'a', 't', ' ', 's', 'a', 't', '\n']

/-! ## Theorems settling the claims -/

/-- Helper: the result component of `gnu_grep_execute` does not depend on the
global state — only the compiled handle and the text determine it. -/
theorem gnu_grep_execute_snd_globals
    (fexec : FixedMatcher → List Char → Option (Nat × Nat))
    (egexec : List Char → RegSyntaxBits → List Char → Option (Nat × Nat))
    (g g' : GnuGlobals) (ctx : Option GnuSearchContext) (text : Option (List Char)) :
    (gnu_grep_execute fexec egexec g ctx text).2
      = (gnu_grep_execute fexec egexec g' ctx text).2 := by
  unfold gnu_grep_execute
  rcases ctx with _ | c
  · rfl
  · rcases c with ⟨cmp, isf⟩
    rcases cmp with _ | pat
    · rfl
    · rcases text with _ | t
      · rfl
      · by_cases hl : t.length = 0
        · simp [hl]
        · rcases pat with m | ⟨p, syn⟩
          · cases hfe : fexec m t with
            | none => simp [hl, hfe]
            | some v => obtain ⟨a, b⟩ := v; simp [hl, hfe]
          · cases hee : egexec p syn t with
            | none => simp [hl, hee]
            | some v => obtain ⟨a, b⟩ := v; simp [hl, hee]

/-- Helper: every operation leaves `error_occurred` false when it was false
(each compile/execute call clears it or, on the early usage-error return,
leaves the state untouched; nothing ever sets it). -/
theorem applyOp_error_false (g : GnuGlobals) (op : GnuOp)
    (h : g.error_occurred = false) : (applyOp g op).error_occurred = false := by
  cases op with
  | compileFixed p ci => simp [applyOp, gnu_grep_compile_fixed]
  | compileRegex p ci ext => simp [applyOp, gnu_grep_compile_regex]
  | execute ctx text =>
    simp only [applyOp]
    unfold gnu_grep_execute
    rcases ctx with _ | c
    · exact h
    · rcases c with ⟨cmp, isf⟩
      rcases cmp with _ | pat
      · exact h
      · rcases text with _ | t
        · exact h
        · by_cases hl : t.length = 0
          · simpa [hl] using h
          · rcases pat with m | ⟨p, syn⟩
            · cases hfe : Fexecute m t with
              | none => simp [hl, hfe]
              | some v => obtain ⟨a, b⟩ := v; simp [hl, hfe]
            · simp [hl]

/-- C1: the Literal/Regex backend does NOT narrow the engine's line-oriented
hit down to the match region.  Evaluated at the failing input of spec §8
scenario 1 (pattern "cat", text "the cat sat\n"): the match region is
offsets 4..6 (length 3), but `gnu_grep_execute` forwards the engine's line
report unchanged and yields start 0 with length 12 — exactly the full span
of the line that produced the hit. -/
theorem c1_execute_reports_full_line_span :
    (gnu_grep_execute Fexecute (fun _ _ _ => none)
        (gnu_grep_compile_fixed initGlobals catPattern false).1
        (gnu_grep_compile_fixed initGlobals catPattern false).2
        (some catText)).2 = GnuExecResult.found 0 12 ∧
    lineStart catText 4 = 0 ∧ lineEnd catText 4 = 12 ∧ catText.length = 12 ∧
    (catText.drop 4).take 3 = catPattern ∧
    GnuExecResult.found 0 12 ≠ GnuExecResult.found 4 3 := by decide

/-- C2: the byte-size computations of `xnmalloc` and `xpalloc` are not
validated: a request whose element count times element size exceeds
`SIZE_MAX` wraps silently and proceeds to allocate the wrapped size (here 0
bytes) instead of failing before allocation. -/
theorem c2_overflow_wraps_silently :
    xnmalloc 4294967296 8589934592 = AllocAction.request 0 ∧
    SIZE_MAX < 4294967296 * 8589934592 ∧
    xnmalloc 4294967296 8589934592 ≠ AllocAction.die ∧
    xpalloc_new_n 9223372036854775808 1 (-1) = 0 ∧
    xpalloc_request 9223372036854775808 1 (-1) 2 = AllocAction.request 0 := by
  refine ⟨rfl, by norm_num [SIZE_MAX], by decide, rfl, rfl⟩

/-- C3: an engine-raised fatal condition during a wrapped compile/execute
call does not resume at the `setjmp` checkpoint: the only fatal hook,
`xalloc_die`, aborts the process (no `longjmp` to the checkpoint exists in
the repository), so the call terminates the process instead of returning a
null-handle/negative result. -/
theorem c3_fatal_condition_terminates_process :
    wrapped_engine_call_outcome EngineSignal.raisesFatal = CallOutcome.processTerminated ∧
    wrapped_engine_call_outcome EngineSignal.raisesFatal ≠ CallOutcome.returns none ∧
    xalloc_die_behavior = FatalHookBehavior.abortsProcess := by decide

/-- C6: independently compiled patterns share no mutable state that affects
matching: compiling a second fixed-string pattern — with any pattern text and
any case-insensitivity flag, which rewrites the global `match_icase` — leaves
the result of executing the first compiled pattern unchanged on every input,
because the first pattern captured its case-folding at compile time. -/
theorem c6_second_compile_does_not_affect_first (g : GnuGlobals)
    (p1 p2 : List Char) (ci1 ci2 : Bool) (text : Option (List Char))
    (egexec : List Char → RegSyntaxBits → List Char → Option (Nat × Nat)) :
    (gnu_grep_execute Fexecute egexec
        (gnu_grep_compile_fixed (gnu_grep_compile_fixed g p1 ci1).1 p2 ci2).1
        (gnu_grep_compile_fixed g p1 ci1).2 text).2
      = (gnu_grep_execute Fexecute egexec
        (gnu_grep_compile_fixed g p1 ci1).1
        (gnu_grep_compile_fixed g p1 ci1).2 text).2 :=
  gnu_grep_execute_snd_globals _ _ _ _ _ _

/-- C7: a null context, a null compiled handle, a null text pointer or a
zero-length text makes `gnu_grep_execute` fail with the usage-error result
-2, which is distinct from the no-match result -1, without consulting either
engine (the result is the same for every engine function) and without
touching the global state. -/
theorem c7_invalid_input_is_usage_error
    (fexec : FixedMatcher → List Char → Option (Nat × Nat))
    (egexec : List Char → RegSyntaxBits → List Char → Option (Nat × Nat))
    (g : GnuGlobals) (ctx : Option GnuSearchContext) (text : Option (List Char))
    (h : ctx = none ∨ (∃ c, ctx = some c ∧ c.compiled = none) ∨
         text = none ∨ text = some []) :
    (gnu_grep_execute fexec egexec g ctx text).2 = GnuExecResult.usageError ∧
    (gnu_grep_execute fexec egexec g ctx text).1 = g ∧
    GnuExecResult.usageError ≠ GnuExecResult.noMatch := by
  refine ⟨?_, ?_, by simp⟩ <;>
  · rcases h with h | ⟨c, hc, hcc⟩ | h | h
    · subst h; rfl
    · subst hc
      rcases c with ⟨cmp, isf⟩
      simp only at hcc
      subst hcc
      rfl
    · subst h
      unfold gnu_grep_execute
      rcases ctx with _ | c
      · rfl
      · rcases c with ⟨cmp, isf⟩
        rcases cmp with _ | pat <;> rfl
    · subst h
      unfold gnu_grep_execute
      rcases ctx with _ | c
      · rfl
      · rcases c with ⟨cmp, isf⟩
        rcases cmp with _ | pat <;> simp

/-- Witness for C7: concrete invalid inputs — a null context with a valid
text, and a valid context with an empty text — both yield the usage error. -/
theorem c7_witness :
    ((gnu_grep_execute Fexecute (fun _ _ _ => none) initGlobals none
        (some catText)).2 = GnuExecResult.usageError ∧
     (gnu_grep_execute Fexecute (fun _ _ _ => none) initGlobals none
        (some catText)).1 = initGlobals ∧
     GnuExecResult.usageError ≠ GnuExecResult.noMatch) ∧
    (gnu_grep_execute Fexecute (fun _ _ _ => none) initGlobals
        (gnu_grep_compile_fixed initGlobals catPattern false).2
        (some [])).2 = GnuExecResult.usageError :=
  ⟨c7_invalid_input_is_usage_error Fexecute (fun _ _ _ => none) initGlobals none
      (some catText) (Or.inl rfl),
   (c7_invalid_input_is_usage_error Fexecute (fun _ _ _ => none) initGlobals
      (gnu_grep_compile_fixed initGlobals catPattern false).2
      (some []) (Or.inr (Or.inr (Or.inr rfl)))).1⟩

/-- C10: along every sequence of compile/execute operations started from the
static initial state, `gnu_grep_get_error` returns NULL — `error_occurred`
starts at zero, is cleared by each compile/execute call and is never set by
any operation, so failures are observable only through the
null-handle/negative-result protocol. -/
theorem c10_get_error_always_null (ops : List GnuOp) :
    gnu_grep_get_error (runOps initGlobals ops) = none := by
  have key : ∀ (l : List GnuOp) (g : GnuGlobals), g.error_occurred = false →
      (runOps g l).error_occurred = false := by
    intro l
    induction l with
    | nil => intro g hg; exact hg
    | cons op rest ih =>
      intro g hg
      have : runOps g (op :: rest) = runOps (applyOp g op) rest := rfl
      rw [this]
      exact ih _ (applyOp_error_false g op hg)
  simp [gnu_grep_get_error, key ops initGlobals rfl]

/-- C8: in `xpalloc`'s growth computation, the increment defaults to the
current count (doubling) and is raised to the minimum increment when smaller,
so with a representable result and no cap clamping the new count is the
current count plus that increment — in particular at least
`current_count + min_increment`; and when a maximum is specified and the
current count plus the increment would exceed it, the new count equals
exactly the maximum. -/
theorem c8_xpalloc_growth (n m : Nat) (nmax : Int)
    (hn : n < SZMOD) (hmax : nmax < 9223372036854775808)
    (hrep : n + (if n < m then m else n) < SZMOD) :
    ((¬ (0 ≤ nmax ∧ nmax.toNat < n + (if n < m then m else n))) →
       xpalloc_new_n n m nmax = n + (if n < m then m else n) ∧
       n + m ≤ xpalloc_new_n n m nmax) ∧
    ((0 ≤ nmax ∧ nmax.toNat < n + (if n < m then m else n)) →
       xpalloc_new_n n m nmax = nmax.toNat) := by
  have h1 : (n + (if n < m then m else n)) % SZMOD = n + (if n < m then m else n) :=
    Nat.mod_eq_of_lt hrep
  unfold xpalloc_new_n
  simp only [h1]
  constructor
  · intro hnc
    rw [if_neg hnc, h1]
    refine ⟨rfl, ?_⟩
    split_ifs <;> omega
  · intro hc
    rw [if_pos hc]
    have hk : nmax.toNat < SZMOD := by
      simp only [SZMOD] at *
      omega
    simp only [SZMOD] at *
    omega

/-- Witness for C8: at current count 10, minimum increment 1 and no cap the
result is 20 (doubling, at least 10 + 1); at the same counts with cap 15 the
result is clamped to exactly 15. -/
theorem c8_xpalloc_growth_witness :
    xpalloc_new_n 10 1 (-1) = 20 ∧ 10 + 1 ≤ xpalloc_new_n 10 1 (-1) ∧
    xpalloc_new_n 10 1 15 = 15 := by
  have ha := (c8_xpalloc_growth 10 1 (-1) (by norm_num [SZMOD]) (by norm_num)
      (by norm_num [SZMOD])).1 (by norm_num)
  have hb := (c8_xpalloc_growth 10 1 15 (by norm_num [SZMOD]) (by norm_num)
      (by norm_num [SZMOD])).2 (by norm_num)
  refine ⟨?_, ?_, ?_⟩
  · simpa using ha.1
  · simpa using ha.2
  · simpa using hb

/-- C9: `reallocarray` returns NULL with `errno = ENOMEM` and attempts no
allocation exactly when `nmemb` is nonzero and `size > SIZE_MAX / nmemb` —
a guard equivalent to `nmemb * size` overflowing `size_t` — and otherwise
delegates to `realloc` with exactly `nmemb * size` bytes. -/
theorem c9_reallocarray_guard (n s : Nat) :
    ((n ≠ 0 ∧ SIZE_MAX / n < s) ↔ (n ≠ 0 ∧ SIZE_MAX < n * s)) ∧
    (n ≠ 0 → SIZE_MAX < n * s → reallocarray n s = ReallocResult.overflow) ∧
    (n = 0 ∨ n * s ≤ SIZE_MAX → reallocarray n s = ReallocResult.alloc (n * s)) := by
  have key : n ≠ 0 → (SIZE_MAX / n < s ↔ SIZE_MAX < n * s) := by
    intro hn
    rw [Nat.div_lt_iff_lt_mul (Nat.pos_of_ne_zero hn), Nat.mul_comm]
  refine ⟨⟨fun ⟨hn, hd⟩ => ⟨hn, (key hn).mp hd⟩, fun ⟨hn, ho⟩ => ⟨hn, (key hn).mpr ho⟩⟩,
          ?_, ?_⟩
  · intro hn ho
    unfold reallocarray
    rw [if_pos ⟨hn, (key hn).mpr ho⟩]
  · intro h
    unfold reallocarray
    rcases h with h | h
    · subst h
      simp
    · have hlt : n * s < SZMOD := by
        have : SZMOD = SIZE_MAX + 1 := by norm_num [SZMOD, SIZE_MAX]
        omega
      rw [if_neg, Nat.mod_eq_of_lt hlt]
      rintro ⟨hn, hd⟩
      exact absurd ((key hn).mp hd) (by omega)

/-- Witness for C9: `reallocarray` with 2^32 elements of 2^33 bytes fails
via the overflow guard, while 3 elements of 8 bytes delegate to `realloc`
with 24 bytes. -/
theorem c9_reallocarray_guard_witness :
    reallocarray 4294967296 8589934592 = ReallocResult.overflow ∧
    reallocarray 3 8 = ReallocResult.alloc 24 := by
  refine ⟨(c9_reallocarray_guard 4294967296 8589934592).2.1 (by norm_num)
            (by norm_num [SIZE_MAX]), ?_⟩
  have h := (c9_reallocarray_guard 3 8).2.2 (Or.inr (by norm_num [SIZE_MAX]))
  simpa using h

/-- Helper: on the everywhere-empty-matching engine, the `pcre2_find_all`
loop starting at `offset` records exactly one zero-width span per position
`offset, ..., text_len - 1` whenever enough result slots remain; the position
`text_len` itself is never searched because of the `offset < text_len`
guard. -/
theorem find_all_loop_empty (L : Nat) :
    ∀ (remaining offset : Nat), L - offset ≤ remaining →
      pcre2_find_all_loop emptyEverywhere L offset remaining
        = ((List.range (L - offset)).map (fun k => (offset + k, offset + k)), none) := by
  intro remaining
  induction remaining with
  | zero =>
    intro offset h
    have h0 : L - offset = 0 := Nat.le_zero.mp h
    simp [pcre2_find_all_loop, h0]
  | succ r ih =>
    intro offset h
    by_cases ho : offset < L
    · have h2 : L - (offset + 1) ≤ r := by omega
      have hrec := ih (offset + 1) h2
      simp only [pcre2_find_all_loop, if_pos ho, emptyEverywhere, eq_self_iff_true, if_true]
      rw [hrec]
      have hL : L - offset = (L - (offset + 1)) + 1 := by omega
      rw [hL, List.range_succ_eq_map, List.map_cons, List.map_map]
      have hfun : ((fun k => (offset + k, offset + k)) ∘ Nat.succ)
          = (fun k => (offset + 1 + k, offset + 1 + k)) := by
        funext k
        have : offset + Nat.succ k = offset + 1 + k := by omega
        simp [Function.comp, this]
      rw [hfun]
      simp
    · have h0 : L - offset = 0 := by omega
      simp [pcre2_find_all_loop, if_neg ho, h0]

/-- C4 counterexample: on a pattern matching the empty string at every
position and a text of length 2 with `max_results = 3 = L + 1`, the code
returns 2 spans, not the claimed L + 1 = 3: the end-of-text position is
never searched. -/
theorem c4_counterexample_end_of_text_missing :
    pcre2_find_all emptyEverywhere 2 3 = Sum.inr [(0, 0), (1, 1)] ∧
    ([((0 : Nat), (0 : Nat)), (1, 1)] : List (Nat × Nat)).length = 2 ∧
    (2 : Nat) ≠ 2 + 1 := by decide

/-- C4 (amended): for a pattern that matches the empty string at every
position and a text of length L, `pcre2_find_all` with `max_results ≥ L`
terminates and returns exactly L spans — one zero-width span per position
0, ..., L-1, each followed by a one-byte advance past the match end; the
end-of-text position L is excluded by the loop guard `offset < text_len`. -/
theorem c4_empty_match_advancement (L maxR : Nat) (h : L ≤ maxR) :
    pcre2_find_all emptyEverywhere L maxR
      = Sum.inr ((List.range L).map (fun k => (k, k))) := by
  unfold pcre2_find_all
  rw [find_all_loop_empty L maxR 0 (by omega)]
  simp

/-- Witness for C4 (amended): text length 3 with 5 result slots yields the
three zero-width spans at positions 0, 1, 2. -/
theorem c4_empty_match_advancement_witness :
    pcre2_find_all emptyEverywhere 3 5 = Sum.inr [(0, 0), (1, 1), (2, 2)] := by
  have h := c4_empty_match_advancement 3 5 (by norm_num)
  rw [h]
  rfl

/-- C5: every failed compilation — engine syntax rejection, context
allocation failure, or match-data/match-context allocation failure — leaves
the caller with an absent compiled-code handle (`pcre2_is_valid` is false);
and after a syntax failure with a surviving context the caller retrieves the
byte offset of the failure via `pcre2_get_error_offset` and the engine's
message for the stored error code via `pcre2_wrapper_get_error_message`. -/
theorem c5_failed_compile_absent_matcher (getMsg : Int → List Char)
    (alloc_ctx alloc_md alloc_mc : Bool) (c : Int) (off : Nat) (h : Nat) :
    pcre2_is_valid
        (pcre2_compile_pattern alloc_ctx (.syntaxError c off) alloc_md alloc_mc) = false ∧
    (¬ (alloc_md = true ∧ alloc_mc = true) →
      pcre2_is_valid
        (pcre2_compile_pattern alloc_ctx (.ok h) alloc_md alloc_mc) = false) ∧
    (alloc_ctx = true →
      pcre2_get_error_offset
        (pcre2_compile_pattern alloc_ctx (.syntaxError c off) alloc_md alloc_mc) = off ∧
      pcre2_wrapper_get_error_message getMsg
        (pcre2_compile_pattern alloc_ctx (.syntaxError c off) alloc_md alloc_mc)
        = some (getMsg c)) := by
  cases alloc_ctx <;> cases alloc_md <;> cases alloc_mc <;>
    simp [pcre2_compile_pattern, pcre2_is_valid, pcre2_get_error_offset,
          pcre2_wrapper_get_error_message]

/-- Witness for C5: a concrete syntax failure (error code -7 at byte offset
2) with all allocations succeeding yields an invalid matcher whose error
offset and message are retrievable; a concrete match-data allocation failure
also yields an invalid matcher. -/
theorem c5_failed_compile_absent_matcher_witness :
    pcre2_is_valid
        (pcre2_compile_pattern true (.syntaxError (-7) 2) true true) = false ∧
    pcre2_get_error_offset
        (pcre2_compile_pattern true (.syntaxError (-7) 2) true true) = 2 ∧
    pcre2_wrapper_get_error_message (fun _ => ['b', 'a', 'd'])
        (pcre2_compile_pattern true (.syntaxError (-7) 2) true true)
        = some ['b', 'a', 'd'] ∧
    pcre2_is_valid (pcre2_compile_pattern true (.ok 5) false true) = false := by
  have h5 := c5_failed_compile_absent_matcher (fun _ => ['b', 'a', 'd'])
      true true true (-7) 2 5
  have h6 := c5_failed_compile_absent_matcher (fun _ => ['b', 'a', 'd'])
      true false true (-7) 2 5
  exact ⟨h5.1, (h5.2.2 rfl).1, (h5.2.2 rfl).2, h6.2.1 (by simp)⟩

end GrepSpec
